import Mathlib

/-!
Shallow embedding of the cart/wishlist reconciliation controllers of the
melody storefront (`src/frontend/src/contexts/CartContext.tsx` and
`src/frontend/src/contexts/WishlistContext.tsx`).

The controllers mediate between three stores:
 * the canonical in-memory snapshot (`items`, React state),
 * the persisted localStorage slot (`melody_cart` / `melody_wishlist`),
 * the server-side per-account collection, reachable only when authenticated.

Remote calls can fail; failures are drawn from an explicit oracle
(`List Bool`, one entry per request, `true` = the request succeeds).
TypeScript `try`/`catch` is embedded with an explicit error field: every
operation returns a `TryRes` whose `err` component records an exception
escaping the operation (`none` = the promise resolved).  `JSON.parse`
failures on the persisted slot are modelled by the `Stored.corrupt`
constructor.  The `dirty` flag records whether `setItems` was invoked with a
fresh array during the operation, which is exactly the condition under which
the `useEffect` persistence hook re-runs afterwards.
-/

namespace Melody

/-- Product as seen by the cart/wishlist contexts: identified by `id`,
carrying a price (used only by `getTotalPrice`). -/
structure Product where
  id : String
  price : Rat
deriving DecidableEq, Repr

/-- Cart entry: a product together with a quantity
(`CartItem` in `types.ts`). -/
structure CartItem where
  product : Product
  quantity : Int
deriving DecidableEq, Repr

/-- A persisted localStorage slot: `absent` (getItem returns null),
`corrupt` (present but `JSON.parse` throws), or a parseable serialized
list. -/
inductive Stored (α : Type) where
  | absent
  | corrupt
  | val (xs : List α)
deriving DecidableEq, Repr

/-- Exception kinds distinguished by the catch handlers: an HTTP 409
conflict (only tested by `addToWishlist`) versus any other failure. -/
inductive Err where
  | conflict
  | other
deriving DecidableEq, Repr

/-- State owned by the cart controller: auth flag, canonical in-memory
snapshot, persisted local slot, and the server-side cart. -/
structure CartSt where
  auth : Bool
  items : List CartItem
  localCart : Stored CartItem
  remoteCart : List CartItem
deriving DecidableEq, Repr

/-- State owned by the wishlist controller. -/
structure WishSt where
  auth : Bool
  items : List Product
  localWish : Stored Product
  remoteWish : List Product
deriving DecidableEq, Repr

/-- Result of running (part of) an operation: resulting state, remaining
network oracle, whether `setItems` ran with a fresh array (so the persist
effect will re-run), and an exception escaping this scope (`none` if it
completed). -/
structure TryRes (σ : Type) where
  state : σ
  oracle : List Bool
  dirty : Bool
  err : Option Err
deriving DecidableEq, Repr

/-- Draw the outcome of one network request from the oracle; an exhausted
oracle behaves as a failing network. -/
def netStep : List Bool → Bool × List Bool
  | [] => (false, [])
  | b :: o => (b, o)

/-- A TypeScript `try`/`catch`: when the tried block completed, keep its
result; when it threw, run the handler on the state, oracle and dirty flag
at the throw point. -/
def tryCatch {σ : Type} (r : TryRes σ)
    (handler : σ → List Bool → Bool → Err → TryRes σ) : TryRes σ :=
  match r with
  | ⟨st, orc, d, none⟩ => ⟨st, orc, d, none⟩
  | ⟨st, orc, d, some e⟩ => handler st orc d e

/-- Modelled from the spec: `PUT /cart/items/{product_id} {quantity}` sets
the quantity of the matching remote entry (the backend source is not part
of the repository snapshot; §6 of the spec gives the contract). -/
def cartServerUpdate (remote : List CartItem) (pid : String) (q : Int) :
    List CartItem :=
  remote.map (fun it =>
    if it.product.id == pid then { it with quantity := q } else it)

/-- Modelled from the spec: `DELETE /cart/items/{product_id}` removes the
matching remote entry. -/
def cartServerDelete (remote : List CartItem) (pid : String) :
    List CartItem :=
  remote.filter (fun it => it.product.id != pid)

/-- Modelled from the spec: `POST /cart/sync` merges the payload into the
remote cart with upsert-by-product_reference semantics (§4.1, §6). -/
def cartServerSync (remote : List CartItem) (payload : List CartItem) :
    List CartItem :=
  payload.foldl (fun acc it =>
    match acc.find? (fun r => r.product.id == it.product.id) with
    | some _ => acc.map (fun r =>
        if r.product.id == it.product.id then
          { r with quantity := it.quantity }
        else r)
    | none => acc ++ [it]) remote

/-- Modelled from the spec: `POST /wishlist/sync` merges the payload ids
into the remote wishlist as a set union (§4.1, §6). -/
def wishServerSync (remote : List Product) (payload : List Product) :
    List Product :=
  payload.foldl (fun acc p =>
    if acc.any (fun r => r.id == p.id) then acc else acc ++ [p]) remote

/-- Body of the authenticated `try` block of `loadCart`
(CartContext.tsx lines 36-72): fetch the remote cart, publish it, mirror it
to localStorage, and — if the fetched cart is empty — re-read localStorage
and push any entries found there to `/cart/sync`.  The inner sync
`try`/`catch` swallows its own failures; a failure of the initial fetch
escapes to the outer catch. -/
def cartLoadAttempt (s : CartSt) (o : List Bool) : TryRes CartSt :=
  match netStep o with
  | (false, o) => ⟨s, o, false, some .other⟩
  | (true, o) =>
    let cartItems := s.remoteCart
    let s := { s with items := cartItems, localCart := .val cartItems }
    if cartItems.length = 0 then
      match s.localCart with
      | .absent => ⟨s, o, true, none⟩
      | .corrupt => ⟨s, o, true, none⟩
      | .val localItems =>
        if localItems.length > 0 then
          match netStep o with
          | (false, o) => ⟨s, o, true, none⟩
          | (true, o) =>
            let s := { s with
              remoteCart := cartServerSync s.remoteCart localItems }
            match netStep o with
            | (false, o) => ⟨s, o, true, none⟩
            | (true, o) =>
              let synced := s.remoteCart
              ⟨{ s with items := synced, localCart := .val synced },
                o, true, none⟩
        else ⟨s, o, true, none⟩
    else ⟨s, o, true, none⟩

/-- `loadCart` (CartContext.tsx lines 33-98): authenticated branch runs
`cartLoadAttempt` and on failure falls back to localStorage (a parse
failure yields the empty snapshot, a missing slot leaves `items`
untouched); unauthenticated branch reads localStorage directly. -/
def loadCart (s : CartSt) (o : List Bool) : TryRes CartSt :=
  if s.auth then
    tryCatch (cartLoadAttempt s o) (fun st orc d _ =>
      match st.localCart with
      | .absent => ⟨st, orc, d, none⟩
      | .corrupt => ⟨{ st with items := [] }, orc, true, none⟩
      | .val xs => ⟨{ st with items := xs }, orc, true, none⟩)
  else
    match s.localCart with
    | .absent => ⟨{ s with items := [] }, o, true, none⟩
    | .corrupt => ⟨{ s with items := [] }, o, true, none⟩
    | .val xs => ⟨{ s with items := xs }, o, true, none⟩

/-- The functional update shared by the local fallback of `addToCart` and
its unauthenticated branch: increment the quantity of an existing entry,
or append a fresh entry. -/
def cartAddLocal (items : List CartItem) (p : Product) (q : Int) :
    List CartItem :=
  match items.find? (fun it => it.product.id == p.id) with
  | some _ => items.map (fun it =>
      if it.product.id == p.id then
        { it with quantity := it.quantity + q }
      else it)
  | none => items ++ [⟨p, q⟩]

/-- The remote mutation issued by an authenticated `addToCart`: an
update-quantity request when the client snapshot already holds the
product (new quantity = snapshot quantity + added quantity), otherwise a
create-entry request. -/
def cartAddRemote (s : CartSt) (p : Product) (q : Int) : List CartItem :=
  match s.items.find? (fun it => it.product.id == p.id) with
  | some existing =>
    cartServerUpdate s.remoteCart p.id (existing.quantity + q)
  | none => s.remoteCart ++ [⟨p, q⟩]

/-- `addToCart` (CartContext.tsx lines 107-157).  Authenticated: update or
create the remote entry, then reload; on request failure apply the local
fallback.  Unauthenticated: local mutation only. -/
def addToCart (p : Product) (q : Int) (s : CartSt) (o : List Bool) :
    TryRes CartSt :=
  if s.auth then
    match netStep o with
    | (true, o) =>
      tryCatch (loadCart { s with remoteCart := cartAddRemote s p q } o)
        (fun st orc _ _ =>
          ⟨{ st with items := cartAddLocal st.items p q }, orc, true, none⟩)
    | (false, o) =>
      ⟨{ s with items := cartAddLocal s.items p q }, o, true, none⟩
  else
    ⟨{ s with items := cartAddLocal s.items p q }, o, true, none⟩

/-- `removeFromCart` (CartContext.tsx lines 159-175).  Authenticated:
delete the remote entry and reload; on failure filter the in-memory
snapshot.  Unauthenticated: filter directly. -/
def removeFromCart (pid : String) (s : CartSt) (o : List Bool) :
    TryRes CartSt :=
  if s.auth then
    match netStep o with
    | (true, o) =>
      tryCatch (loadCart { s with remoteCart := cartServerDelete s.remoteCart pid } o)
        (fun st orc _ _ =>
          ⟨{ st with
              items := st.items.filter (fun it => it.product.id != pid) },
            orc, true, none⟩)
    | (false, o) =>
      ⟨{ s with items := s.items.filter (fun it => it.product.id != pid) },
        o, true, none⟩
  else
    ⟨{ s with items := s.items.filter (fun it => it.product.id != pid) },
      o, true, none⟩

/-- `updateQuantity` (CartContext.tsx lines 177-206): a non-positive
quantity delegates to `removeFromCart`; otherwise update the remote entry
and reload, with a direct map as local fallback. -/
def updateQuantity (pid : String) (q : Int) (s : CartSt) (o : List Bool) :
    TryRes CartSt :=
  if q ≤ 0 then removeFromCart pid s o
  else if s.auth then
    match netStep o with
    | (true, o) =>
      tryCatch (loadCart { s with remoteCart := cartServerUpdate s.remoteCart pid q } o)
        (fun st orc _ _ =>
          ⟨{ st with items := st.items.map (fun it =>
              if it.product.id == pid then { it with quantity := q }
              else it) },
            orc, true, none⟩)
    | (false, o) =>
      ⟨{ s with items := s.items.map (fun it =>
          if it.product.id == pid then { it with quantity := q } else it) },
        o, true, none⟩
  else
    ⟨{ s with items := s.items.map (fun it =>
        if it.product.id == pid then { it with quantity := q } else it) },
      o, true, none⟩

/-- `clearCart` (CartContext.tsx lines 208-224): empty the snapshot in
every branch; erase localStorage only when the remote delete-all succeeded
or while unauthenticated. -/
def clearCart (s : CartSt) (o : List Bool) : TryRes CartSt :=
  if s.auth then
    match netStep o with
    | (true, o) =>
      ⟨{ s with remoteCart := [], items := [], localCart := .absent },
        o, true, none⟩
    | (false, o) => ⟨{ s with items := [] }, o, true, none⟩
  else
    ⟨{ s with items := [], localCart := .absent }, o, true, none⟩

/-- `getTotalItems` (CartContext.tsx lines 226-228). -/
def getTotalItems (s : CartSt) : Int :=
  s.items.foldl (fun total it => total + it.quantity) 0

/-- `getTotalPrice` (CartContext.tsx lines 230-232). -/
def getTotalPrice (s : CartSt) : Rat :=
  s.items.foldl (fun total it =>
    total + it.product.price * (it.quantity : Rat)) 0

/-- `isInCart` (CartContext.tsx lines 234-236). -/
def isInCart (pid : String) (s : CartSt) : Bool :=
  s.items.any (fun it => it.product.id == pid)

/-- `syncCart` (CartContext.tsx lines 238-259): while authenticated, read
localStorage and push any entries to `/cart/sync`, then reload; every
failure (including a parse failure) is swallowed by its own catch. -/
def syncCart (s : CartSt) (o : List Bool) : TryRes CartSt :=
  if s.auth then
    match s.localCart with
    | .absent => ⟨s, o, false, none⟩
    | .corrupt => ⟨s, o, false, none⟩
    | .val localItems =>
      if localItems.length > 0 then
        match netStep o with
        | (true, o) =>
          tryCatch (loadCart { s with remoteCart := cartServerSync s.remoteCart localItems } o)
            (fun st orc d _ => ⟨st, orc, d, none⟩)
        | (false, o) => ⟨s, o, false, none⟩
      else ⟨s, o, false, none⟩
  else ⟨s, o, false, none⟩

/-- The public cart operations. -/
inductive CartOp where
  | load
  | add (p : Product) (q : Int)
  | remove (pid : String)
  | update (pid : String) (q : Int)
  | clear
  | sync
deriving DecidableEq, Repr

/-- Dispatch a public cart operation to its body. -/
def cartOpBody : CartOp → CartSt → List Bool → TryRes CartSt
  | .load, s, o => loadCart s o
  | .add p q, s, o => addToCart p q s o
  | .remove pid, s, o => removeFromCart pid s o
  | .update pid q, s, o => updateQuantity pid q s o
  | .clear, s, o => clearCart s o
  | .sync, s, o => syncCart s o

/-- Run a public cart operation followed by the persist effect
(CartContext.tsx lines 102-105): whenever `setItems` ran, mirror the
canonical snapshot into localStorage.  An escaped exception would leave
the pre-operation state visible (this never happens; see the propagation
theorem). -/
def runCartOp (op : CartOp) (s : CartSt) (o : List Bool) :
    CartSt × List Bool :=
  match cartOpBody op s o with
  | ⟨st, orc, d, none⟩ =>
    (if d then { st with localCart := .val st.items } else st, orc)
  | ⟨_, _, _, some _⟩ => (s, o)

/-- Run a sequence of cart operations, threading the network oracle. -/
def runCartOps : List CartOp → CartSt → List Bool → CartSt
  | [], s, _ => s
  | op :: ops, s, o =>
    let (s', o') := runCartOp op s o
    runCartOps ops s' o'

/-- Body of the authenticated `try` block of `loadWishlist`
(WishlistContext.tsx lines 33-60); structurally identical to
`cartLoadAttempt`. -/
def wishLoadAttempt (s : WishSt) (o : List Bool) : TryRes WishSt :=
  match netStep o with
  | (false, o) => ⟨s, o, false, some .other⟩
  | (true, o) =>
    let wishlistProducts := s.remoteWish
    let s := { s with items := wishlistProducts,
                      localWish := .val wishlistProducts }
    if wishlistProducts.length = 0 then
      match s.localWish with
      | .absent => ⟨s, o, true, none⟩
      | .corrupt => ⟨s, o, true, none⟩
      | .val localItems =>
        if localItems.length > 0 then
          match netStep o with
          | (false, o) => ⟨s, o, true, none⟩
          | (true, o) =>
            let s := { s with
              remoteWish := wishServerSync s.remoteWish localItems }
            match netStep o with
            | (false, o) => ⟨s, o, true, none⟩
            | (true, o) =>
              let synced := s.remoteWish
              ⟨{ s with items := synced, localWish := .val synced },
                o, true, none⟩
        else ⟨s, o, true, none⟩
    else ⟨s, o, true, none⟩

/-- `loadWishlist` (WishlistContext.tsx lines 30-86). -/
def loadWishlist (s : WishSt) (o : List Bool) : TryRes WishSt :=
  if s.auth then
    tryCatch (wishLoadAttempt s o) (fun st orc d _ =>
      match st.localWish with
      | .absent => ⟨st, orc, d, none⟩
      | .corrupt => ⟨{ st with items := [] }, orc, true, none⟩
      | .val xs => ⟨{ st with items := xs }, orc, true, none⟩)
  else
    match s.localWish with
    | .absent => ⟨{ s with items := [] }, o, true, none⟩
    | .corrupt => ⟨{ s with items := [] }, o, true, none⟩
    | .val xs => ⟨{ s with items := xs }, o, true, none⟩

/-- `addToWishlist` (WishlistContext.tsx lines 97-128).  Authenticated:
`POST /wishlist/items/{id}`; a 409 (entry already present remotely) is
caught and treated as success, triggering a reload; any other failure
falls back to a guarded local append.  Unauthenticated: guarded local
append (when the product is already present, `setItems` returns the
previous array unchanged, so the persist effect does not re-run). -/
def addToWishlist (p : Product) (s : WishSt) (o : List Bool) :
    TryRes WishSt :=
  if s.auth then
    match netStep o with
    | (true, o) =>
      if s.remoteWish.any (fun r => r.id == p.id) then
        loadWishlist s o
      else
        tryCatch (loadWishlist { s with remoteWish := s.remoteWish ++ [p] } o)
          (fun st orc d e =>
            match e with
            | .conflict => loadWishlist st orc
            | .other =>
              if st.items.any (fun it => it.id == p.id) then
                ⟨st, orc, d, none⟩
              else
                ⟨{ st with items := st.items ++ [p] }, orc, true, none⟩)
    | (false, o) =>
      if s.items.any (fun it => it.id == p.id) then ⟨s, o, false, none⟩
      else ⟨{ s with items := s.items ++ [p] }, o, true, none⟩
  else
    if s.items.any (fun it => it.id == p.id) then ⟨s, o, false, none⟩
    else ⟨{ s with items := s.items ++ [p] }, o, true, none⟩

/-- `removeFromWishlist` (WishlistContext.tsx lines 130-146). -/
def removeFromWishlist (pid : String) (s : WishSt) (o : List Bool) :
    TryRes WishSt :=
  if s.auth then
    match netStep o with
    | (true, o) =>
      tryCatch (loadWishlist { s with remoteWish := s.remoteWish.filter (fun it => it.id != pid) } o)
        (fun st orc _ _ =>
          ⟨{ st with items := st.items.filter (fun it => it.id != pid) },
            orc, true, none⟩)
    | (false, o) =>
      ⟨{ s with items := s.items.filter (fun it => it.id != pid) },
        o, true, none⟩
  else
    ⟨{ s with items := s.items.filter (fun it => it.id != pid) },
      o, true, none⟩

/-- `clearWishlist` (WishlistContext.tsx lines 148-164). -/
def clearWishlist (s : WishSt) (o : List Bool) : TryRes WishSt :=
  if s.auth then
    match netStep o with
    | (true, o) =>
      ⟨{ s with remoteWish := [], items := [], localWish := .absent },
        o, true, none⟩
    | (false, o) => ⟨{ s with items := [] }, o, true, none⟩
  else
    ⟨{ s with items := [], localWish := .absent }, o, true, none⟩

/-- `isInWishlist` (WishlistContext.tsx lines 166-168). -/
def isInWishlist (pid : String) (s : WishSt) : Bool :=
  s.items.any (fun it => it.id == pid)

/-- `toggleWishlist` (WishlistContext.tsx lines 170-176). -/
def toggleWishlist (p : Product) (s : WishSt) (o : List Bool) :
    TryRes WishSt :=
  if isInWishlist p.id s then removeFromWishlist p.id s o
  else addToWishlist p s o

/-- The public wishlist operations. -/
inductive WishOp where
  | load
  | add (p : Product)
  | remove (pid : String)
  | clear
  | toggle (p : Product)
deriving DecidableEq, Repr

/-- Dispatch a public wishlist operation to its body. -/
def wishOpBody : WishOp → WishSt → List Bool → TryRes WishSt
  | .load, s, o => loadWishlist s o
  | .add p, s, o => addToWishlist p s o
  | .remove pid, s, o => removeFromWishlist pid s o
  | .clear, s, o => clearWishlist s o
  | .toggle p, s, o => toggleWishlist p s o

/-- Run a public wishlist operation followed by the persist effect
(WishlistContext.tsx lines 90-95), which writes localStorage only while
unauthenticated. -/
def runWishOp (op : WishOp) (s : WishSt) (o : List Bool) :
    WishSt × List Bool :=
  match wishOpBody op s o with
  | ⟨st, orc, d, none⟩ =>
    (if d && !st.auth then { st with localWish := .val st.items }
     else st, orc)
  | ⟨_, _, _, some _⟩ => (s, o)

/-- Run a sequence of wishlist operations, threading the network oracle. -/
def runWishOps : List WishOp → WishSt → List Bool → WishSt
  | [], s, _ => s
  | op :: ops, s, o =>
    let (s', o') := runWishOp op s o
    runWishOps ops s' o'

/-- Sample product used in concrete scenarios. -/
def prodA : Product := ⟨"A", 10⟩

/-- Second sample product used in concrete scenarios. -/
def prodB : Product := ⟨"B", 5⟩

/-- The product references of a cart snapshot, in order. -/
def cartIds (items : List CartItem) : List String :=
  items.map (fun it => it.product.id)

/-- Well-formedness of a cart snapshot: product references are pairwise
distinct and every quantity is at least 1 (no entry with quantity ≤ 0). -/
def CartWF (items : List CartItem) : Prop :=
  (cartIds items).Nodup ∧ ∀ it ∈ items, 1 ≤ it.quantity

/-- The cart mutations covered by the unauthenticated-invariant claim:
`add` (with the positive quantity every UI call site passes), `remove`
and `updateQuantity`. -/
def mutOk : CartOp → Bool
  | .add _ q => decide (1 ≤ q)
  | .remove _ => true
  | .update _ _ => true
  | _ => false

/-! ## Helper lemmas -/

theorem tryCatch_of_err_none {σ : Type} (r : TryRes σ)
    (handler : σ → List Bool → Bool → Err → TryRes σ)
    (h : r.err = none) : tryCatch r handler = r := by
  rcases r with ⟨st, orc, d, e⟩
  cases e with
  | none => rfl
  | some e' => exact absurd h (by simp)

theorem tryCatch_err_none {σ : Type} (r : TryRes σ)
    (handler : σ → List Bool → Bool → Err → TryRes σ)
    (hh : ∀ st orc d e, (handler st orc d e).err = none) :
    (tryCatch r handler).err = none := by
  rcases r with ⟨st, orc, d, e⟩
  cases e with
  | none => rfl
  | some e' => exact hh st orc d e'

theorem loadCart_err_none (s : CartSt) (o : List Bool) :
    (loadCart s o).err = none := by
  unfold loadCart
  split
  · apply tryCatch_err_none
    intro st orc d e
    split <;> rfl
  · split <;> rfl

theorem loadWishlist_err_none (s : WishSt) (o : List Bool) :
    (loadWishlist s o).err = none := by
  unfold loadWishlist
  split
  · apply tryCatch_err_none
    intro st orc d e
    split <;> rfl
  · split <;> rfl

theorem cartOpBody_err_none (op : CartOp) (s : CartSt) (o : List Bool) :
    (cartOpBody op s o).err = none := by
  cases op with
  | load => exact loadCart_err_none s o
  | add p q =>
    show (addToCart p q s o).err = none
    unfold addToCart
    repeat first
      | rfl
      | (apply tryCatch_err_none; intro st orc d e; rfl)
      | split
  | remove pid =>
    show (removeFromCart pid s o).err = none
    unfold removeFromCart
    repeat first
      | rfl
      | (apply tryCatch_err_none; intro st orc d e; rfl)
      | split
  | update pid q =>
    show (updateQuantity pid q s o).err = none
    unfold updateQuantity removeFromCart
    repeat first
      | rfl
      | (apply tryCatch_err_none; intro st orc d e; rfl)
      | split
  | clear =>
    show (clearCart s o).err = none
    unfold clearCart
    repeat first | rfl | split
  | sync =>
    show (syncCart s o).err = none
    unfold syncCart
    repeat first
      | rfl
      | (apply tryCatch_err_none; intro st orc d e; rfl)
      | split

theorem addToWishlist_err_none (p : Product) (s : WishSt) (o : List Bool) :
    (addToWishlist p s o).err = none := by
  unfold addToWishlist
  split
  · split
    · split
      · exact loadWishlist_err_none _ _
      · apply tryCatch_err_none
        intro st orc d e
        cases e with
        | conflict => exact loadWishlist_err_none _ _
        | other => dsimp only; split <;> rfl
    · split <;> rfl
  · split <;> rfl

theorem removeFromWishlist_err_none (pid : String) (s : WishSt)
    (o : List Bool) : (removeFromWishlist pid s o).err = none := by
  unfold removeFromWishlist
  repeat first
    | rfl
    | (apply tryCatch_err_none; intro st orc d e; rfl)
    | split

theorem wishOpBody_err_none (op : WishOp) (s : WishSt) (o : List Bool) :
    (wishOpBody op s o).err = none := by
  cases op with
  | load => exact loadWishlist_err_none s o
  | add p => exact addToWishlist_err_none p s o
  | remove pid => exact removeFromWishlist_err_none pid s o
  | clear =>
    show (clearWishlist s o).err = none
    unfold clearWishlist
    repeat first | rfl | split
  | toggle p =>
    show (toggleWishlist p s o).err = none
    unfold toggleWishlist
    split
    · exact removeFromWishlist_err_none _ s o
    · exact addToWishlist_err_none p s o

/-- Summing with a `foldl` over `+` equals the sum of the mapped list. -/
theorem foldl_add_sum {M : Type} [AddCommMonoid M] {α : Type}
    (f : α → M) (l : List α) (a : M) :
    l.foldl (fun t x => t + f x) a = a + (l.map f).sum := by
  induction l generalizing a with
  | nil => simp
  | cons x xs ih => simp [ih, add_assoc]

theorem cartLoadAttempt_post (s : CartSt) (o : List Bool) :
    (cartLoadAttempt s o).dirty = true ∨ (cartLoadAttempt s o).state = s := by
  unfold cartLoadAttempt
  dsimp only
  repeat first | (exact Or.inl rfl) | (exact Or.inr rfl) | split

theorem loadCart_post (s : CartSt) (o : List Bool) :
    (loadCart s o).dirty = true ∨
    ((loadCart s o).state.items = s.items ∧
     (loadCart s o).state.localCart = s.localCart) := by
  have hp := cartLoadAttempt_post s o
  unfold loadCart
  split
  · rcases hat : cartLoadAttempt s o with ⟨st, orc, d, e⟩
    rw [hat] at hp
    cases e with
    | none =>
      dsimp only [tryCatch]
      rcases hp with hd | hs
      · exact Or.inl hd
      · have hs' : st = s := hs
        rw [hs']
        exact Or.inr ⟨rfl, rfl⟩
    | some e' =>
      dsimp only [tryCatch]
      rcases hp with hd | hs
      · have hd' : d = true := hd
        rcases hl : st.localCart with _ | _ | xs <;> dsimp only
        · exact Or.inl hd'
        · exact Or.inl rfl
        · exact Or.inl rfl
      · have hs' : st = s := hs
        rw [hs']
        rcases hl : s.localCart with _ | _ | xs <;> dsimp only
        · exact Or.inr ⟨rfl, hl⟩
        · exact Or.inl rfl
        · exact Or.inl rfl
  · rcases hl : s.localCart with _ | _ | xs <;> dsimp only
    · exact Or.inl rfl
    · exact Or.inl rfl
    · exact Or.inl rfl

theorem cartOpBody_post (op : CartOp) (s : CartSt) (o : List Bool) :
    (cartOpBody op s o).dirty = true ∨
    ((cartOpBody op s o).state.items = s.items ∧
     (cartOpBody op s o).state.localCart = s.localCart) := by
  cases op with
  | load => exact loadCart_post s o
  | add p q =>
    show (addToCart p q s o).dirty = true ∨
      ((addToCart p q s o).state.items = s.items ∧
       (addToCart p q s o).state.localCart = s.localCart)
    unfold addToCart
    repeat first
      | (exact Or.inl rfl)
      | (rw [tryCatch_of_err_none _ _ (loadCart_err_none _ _)]
         exact loadCart_post _ _)
      | split
  | remove pid =>
    show (removeFromCart pid s o).dirty = true ∨
      ((removeFromCart pid s o).state.items = s.items ∧
       (removeFromCart pid s o).state.localCart = s.localCart)
    unfold removeFromCart
    repeat first
      | (exact Or.inl rfl)
      | (rw [tryCatch_of_err_none _ _ (loadCart_err_none _ _)]
         exact loadCart_post _ _)
      | split
  | update pid q =>
    show (updateQuantity pid q s o).dirty = true ∨
      ((updateQuantity pid q s o).state.items = s.items ∧
       (updateQuantity pid q s o).state.localCart = s.localCart)
    unfold updateQuantity removeFromCart
    repeat first
      | (exact Or.inl rfl)
      | (rw [tryCatch_of_err_none _ _ (loadCart_err_none _ _)]
         exact loadCart_post _ _)
      | split
  | clear =>
    show (clearCart s o).dirty = true ∨
      ((clearCart s o).state.items = s.items ∧
       (clearCart s o).state.localCart = s.localCart)
    unfold clearCart
    repeat first | (exact Or.inl rfl) | split
  | sync =>
    show (syncCart s o).dirty = true ∨
      ((syncCart s o).state.items = s.items ∧
       (syncCart s o).state.localCart = s.localCart)
    unfold syncCart
    repeat first
      | (exact Or.inl rfl)
      | (exact Or.inr ⟨rfl, rfl⟩)
      | (rw [tryCatch_of_err_none _ _ (loadCart_err_none _ _)]
         exact loadCart_post _ _)
      | split

theorem runCartOp_mirror (op : CartOp) (s : CartSt) (o : List Bool)
    (h : s.localCart = .val s.items) :
    (runCartOp op s o).1.localCart = .val (runCartOp op s o).1.items := by
  have hp := cartOpBody_post op s o
  have he := cartOpBody_err_none op s o
  rcases hb : cartOpBody op s o with ⟨st, orc, d, e⟩
  rw [hb] at hp he
  have he' : e = none := he
  subst he'
  unfold runCartOp
  rw [hb]
  rcases hp with hd | ⟨hi, hl⟩
  · have hd' : d = true := hd
    subst hd'
    simp
  · have hi' : st.items = s.items := hi
    have hl' : st.localCart = s.localCart := hl
    cases d with
    | false => simpa [hi', hl'] using h
    | true => simp

theorem cartIds_map_preserve (items : List CartItem)
    (f : CartItem → CartItem) (hf : ∀ it, (f it).product = it.product) :
    cartIds (items.map f) = cartIds items := by
  unfold cartIds
  rw [List.map_map]
  have hfe : ((fun it => it.product.id) ∘ f)
      = (fun it : CartItem => it.product.id) := by
    funext it
    simp [Function.comp, hf]
  rw [hfe]

theorem cartAddLocal_wf (items : List CartItem) (p : Product) (q : Int)
    (h : CartWF items) (hq : 1 ≤ q) : CartWF (cartAddLocal items p q) := by
  unfold cartAddLocal
  cases hf : items.find? (fun it => it.product.id == p.id) with
  | some it0 =>
    constructor
    · rw [cartIds_map_preserve]
      · exact h.1
      · intro it
        split <;> rfl
    · intro x hx
      rcases List.mem_map.mp hx with ⟨y, hy, rfl⟩
      have hqy := h.2 y hy
      by_cases hid : (y.product.id == p.id) = true
      · simp only [hid, if_true]
        omega
      · simp only [hid, if_false]
        exact hqy
  | none =>
    have hnot : p.id ∉ cartIds items := by
      intro hin
      rcases List.mem_map.mp hin with ⟨y, hy, hid⟩
      have hnone := List.find?_eq_none.mp hf y hy
      exact hnone (by simp [hid])
    constructor
    · have hids : cartIds (items ++ [⟨p, q⟩]) = cartIds items ++ [p.id] := by
        simp [cartIds]
      rw [hids, List.nodup_append]
      refine ⟨h.1, List.nodup_singleton _, ?_⟩
      intro a ha hmem
      rw [List.mem_singleton] at hmem
      subst hmem
      exact hnot ha
    · intro x hx
      rcases List.mem_append.mp hx with hx | hx
      · exact h.2 x hx
      · rw [List.mem_singleton] at hx
        subst hx
        exact hq

theorem cartFilter_wf (items : List CartItem) (pred : CartItem → Bool)
    (h : CartWF items) : CartWF (items.filter pred) := by
  constructor
  · have hsub : (cartIds (items.filter pred)).Sublist (cartIds items) :=
      (List.filter_sublist _).map _
    exact h.1.sublist hsub
  · intro x hx
    exact h.2 x (List.mem_of_mem_filter hx)

theorem cartMapQty_wf (items : List CartItem) (pid : String) (q : Int)
    (hq : 1 ≤ q) (h : CartWF items) :
    CartWF (items.map fun it =>
      if it.product.id == pid then { it with quantity := q } else it) := by
  constructor
  · rw [cartIds_map_preserve]
    · exact h.1
    · intro it
      split <;> rfl
  · intro x hx
    rcases List.mem_map.mp hx with ⟨y, hy, rfl⟩
    have hqy := h.2 y hy
    by_cases hid : (y.product.id == pid) = true
    · simp only [hid, if_true]
      exact hq
    · simp only [hid, if_false]
      exact hqy

theorem runCartOp_add_unauth (p : Product) (q : Int) (s : CartSt)
    (o : List Bool) (ha : s.auth = false) :
    runCartOp (.add p q) s o
      = ({ s with
            items := cartAddLocal s.items p q,
            localCart := .val (cartAddLocal s.items p q) }, o) := by
  simp [runCartOp, cartOpBody, addToCart, ha]

theorem runCartOp_remove_unauth (pid : String) (s : CartSt)
    (o : List Bool) (ha : s.auth = false) :
    runCartOp (.remove pid) s o
      = ({ s with
            items := s.items.filter (fun it => it.product.id != pid),
            localCart :=
              .val (s.items.filter (fun it => it.product.id != pid)) },
          o) := by
  simp [runCartOp, cartOpBody, removeFromCart, ha]

theorem runCartOp_updatePos_unauth (pid : String) (q : Int) (s : CartSt)
    (o : List Bool) (ha : s.auth = false) (hq : ¬q ≤ 0) :
    runCartOp (.update pid q) s o
      = ({ s with
            items := s.items.map (fun it =>
              if it.product.id == pid then { it with quantity := q }
              else it),
            localCart := .val (s.items.map (fun it =>
              if it.product.id == pid then { it with quantity := q }
              else it)) }, o) := by
  simp [runCartOp, cartOpBody, updateQuantity, ha, hq]

theorem cartStep_unauth (op : CartOp) (s : CartSt) (o : List Bool)
    (hop : mutOk op = true) (ha : s.auth = false) (h : CartWF s.items) :
    (runCartOp op s o).1.auth = false ∧
    CartWF (runCartOp op s o).1.items := by
  cases op with
  | add p q =>
    have hq : 1 ≤ q := by simpa [mutOk] using hop
    rw [runCartOp_add_unauth p q s o ha]
    exact ⟨ha, cartAddLocal_wf _ _ _ h hq⟩
  | remove pid =>
    rw [runCartOp_remove_unauth pid s o ha]
    exact ⟨ha, cartFilter_wf _ _ h⟩
  | update pid q =>
    by_cases hql : q ≤ 0
    · have heq : runCartOp (.update pid q) s o
          = runCartOp (.remove pid) s o := by
        simp [runCartOp, cartOpBody, updateQuantity, hql]
      rw [heq, runCartOp_remove_unauth pid s o ha]
      exact ⟨ha, cartFilter_wf _ _ h⟩
    · rw [runCartOp_updatePos_unauth pid q s o ha hql]
      exact ⟨ha, cartMapQty_wf _ _ _ (by omega) h⟩
  | load => exact absurd hop (by simp [mutOk])
  | clear => exact absurd hop (by simp [mutOk])
  | sync => exact absurd hop (by simp [mutOk])

theorem cartOps_unauth_wf (ops : List CartOp) (s : CartSt) (o : List Bool)
    (hops : ∀ op ∈ ops, mutOk op = true) (ha : s.auth = false)
    (h : CartWF s.items) : CartWF (runCartOps ops s o).items := by
  induction ops generalizing s o with
  | nil => exact h
  | cons op ops ih =>
    have hstep := cartStep_unauth op s o (hops op (by simp)) ha h
    exact ih (runCartOp op s o).1 (runCartOp op s o).2
      (fun op' hop' => hops op' (by simp [hop'])) hstep.1 hstep.2

theorem loadWishlist_auth_ok (s : WishSt) (o : List Bool)
    (h : s.auth = true) :
    loadWishlist s (true :: o)
      = ⟨{ s with items := s.remoteWish, localWish := .val s.remoteWish },
          o, true, none⟩ := by
  by_cases hlen : s.remoteWish.length = 0 <;>
    simp [loadWishlist, wishLoadAttempt, netStep, tryCatch, h, hlen]

theorem wishAdd_unauth_char (s : WishSt) (p : Product) (o : List Bool)
    (ha : s.auth = false) :
    runWishOp (.add p) s o
      = ((if s.items.any (fun it => it.id == p.id) then s
          else { s with
            items := s.items ++ [p],
            localWish := .val (s.items ++ [p]) }), o) := by
  by_cases hmem : (s.items.any fun it => it.id == p.id) = true <;>
    simp [runWishOp, wishOpBody, addToWishlist, ha, hmem]

theorem wishAdd_authfail_char (s : WishSt) (p : Product) (o : List Bool)
    (ha : s.auth = true) :
    runWishOp (.add p) s (false :: o)
      = ((if s.items.any (fun it => it.id == p.id) then s
          else { s with items := s.items ++ [p] }), o) := by
  by_cases hmem : (s.items.any fun it => it.id == p.id) = true <;>
    simp [runWishOp, wishOpBody, addToWishlist, netStep, ha, hmem]

theorem wishAdd_authok_char (s : WishSt) (p : Product) (o : List Bool)
    (ha : s.auth = true) :
    runWishOp (.add p) s (true :: true :: o)
      = ((if s.remoteWish.any (fun it => it.id == p.id) then
            { s with
              items := s.remoteWish,
              localWish := .val s.remoteWish }
          else
            { s with
              remoteWish := s.remoteWish ++ [p],
              items := s.remoteWish ++ [p],
              localWish := .val (s.remoteWish ++ [p]) }), o) := by
  by_cases hmem : (s.remoteWish.any fun it => it.id == p.id) = true
  · simp [runWishOp, wishOpBody, addToWishlist, netStep, tryCatch, ha,
      hmem, loadWishlist_auth_ok]
  · simp [runWishOp, wishOpBody, addToWishlist, netStep, tryCatch, ha,
      hmem, loadWishlist_auth_ok]

/-! ## Claim theorems -/

/-- C1: the claimed login merge never happens.  With a non-empty Local
snapshot (`[{A,2},{B,1}]`), an empty freshly-fetched Remote, authenticated
state and a fully available network, `load()` ends with an empty canonical
snapshot, an empty Remote, and the Local slot overwritten with the empty
list — because the code mirrors the fetched (empty) Remote into the Local
slot before reading the slot back for the merge check, so the sync branch
can never fire.  The claim (canonical = Local entries, Remote now contains
them) fails; the code contradicts its own sync comment, and the wishlist
controller has the same dead branch. -/
theorem login_merge_never_fires :
    (runCartOp .load
        ⟨true, [⟨prodA, 2⟩, ⟨prodB, 1⟩], .val [⟨prodA, 2⟩, ⟨prodB, 1⟩], []⟩
        [true, true, true]).1
      = ⟨true, [], .val [], []⟩ ∧
    (runWishOp .load
        ⟨true, [prodA, prodB], .val [prodA, prodB], []⟩
        [true, true, true]).1
      = ⟨true, [], .val [], []⟩ := by
  decide

/-- C3: wishlist add is idempotent.  For every starting state and in
either authentication state, under a uniform network condition (all
requests succeeding — with a 409 conflict treated as success and followed
by a reload — or all failing, taking the guarded local fallback), adding
the same product twice in a row yields the same canonical snapshot as
adding it once. -/
theorem wishlist_add_idempotent (s : WishSt) (p : Product) (b : Bool) :
    (runWishOps [.add p, .add p] s (List.replicate 10 b)).items
      = (runWishOps [.add p] s (List.replicate 10 b)).items := by
  cases hauth : s.auth with
  | false =>
    by_cases hmem : (s.items.any fun it => it.id == p.id) = true
    · simp [runWishOps, wishAdd_unauth_char, hauth, hmem]
    · simp [runWishOps, wishAdd_unauth_char, hauth, hmem, List.any_append]
  | true =>
    cases b with
    | false =>
      have h10 : (List.replicate 10 false)
          = false :: List.replicate 9 false := rfl
      have h9 : (List.replicate 9 false)
          = false :: List.replicate 8 false := rfl
      by_cases hmem : (s.items.any fun it => it.id == p.id) = true
      · simp [runWishOps, h10, h9, wishAdd_authfail_char, hauth, hmem]
      · simp [runWishOps, h10, h9, wishAdd_authfail_char, hauth, hmem,
          List.any_append]
    | true =>
      have h10 : (List.replicate 10 true)
          = true :: true :: List.replicate 8 true := rfl
      have h8 : (List.replicate 8 true)
          = true :: true :: List.replicate 6 true := rfl
      by_cases hmem : (s.remoteWish.any fun it => it.id == p.id) = true
      · simp [runWishOps, h10, h8, wishAdd_authok_char, hauth, hmem]
      · simp [runWishOps, h10, h8, wishAdd_authok_char, hauth, hmem,
          List.any_append]

/-- C4: `clear()` always leaves an empty canonical snapshot, for both
controllers, in every authentication state and for every outcome of the
remote delete-all request. -/
theorem clear_always_empties (sc : CartSt) (sw : WishSt)
    (oc ow : List Bool) :
    (runCartOp .clear sc oc).1.items = [] ∧
    (runWishOp .clear sw ow).1.items = [] := by
  constructor
  · cases hs : sc.auth with
    | false => simp [runCartOp, cartOpBody, clearCart, hs]
    | true =>
      cases oc with
      | nil => simp [runCartOp, cartOpBody, clearCart, hs, netStep]
      | cons b o' =>
        cases b <;> simp [runCartOp, cartOpBody, clearCart, hs, netStep]
  · cases hs : sw.auth with
    | false => simp [runWishOp, wishOpBody, clearWishlist, hs]
    | true =>
      cases ow with
      | nil => simp [runWishOp, wishOpBody, clearWishlist, hs, netStep]
      | cons b o' =>
        cases b <;> simp [runWishOp, wishOpBody, clearWishlist, hs, netStep]

/-- C6: for any non-positive quantity, `updateQuantity` is literally
`removeFromCart`: the resulting state and remaining oracle coincide in
every authentication state and under every remote outcome. -/
theorem updateQuantity_nonpos_eq_remove (pid : String) (q : Int)
    (s : CartSt) (o : List Bool) (h : q ≤ 0) :
    runCartOp (.update pid q) s o = runCartOp (.remove pid) s o := by
  simp [runCartOp, cartOpBody, updateQuantity, h]

/-- Witness for C6 at quantity 0 on a concrete unauthenticated state. -/
theorem updateQuantity_nonpos_eq_remove_witness :
    (0 : Int) ≤ 0 ∧
    runCartOp (.update "A" 0) ⟨false, [⟨prodA, 1⟩], .absent, []⟩ []
      = runCartOp (.remove "A") ⟨false, [⟨prodA, 1⟩], .absent, []⟩ [] :=
  ⟨le_refl 0,
    updateQuantity_nonpos_eq_remove "A" 0
      ⟨false, [⟨prodA, 1⟩], .absent, []⟩ [] (le_refl 0)⟩

/-- C7: `getTotalItems` is the sum of the quantities of the canonical
snapshot and `getTotalPrice` is the sum of price × quantity over it; both
are pure functions of the snapshot. -/
theorem totals_are_sums (s : CartSt) :
    getTotalItems s = (s.items.map (fun it => it.quantity)).sum ∧
    getTotalPrice s
      = (s.items.map
          (fun it => it.product.price * (it.quantity : Rat))).sum := by
  constructor
  · simp only [getTotalItems, foldl_add_sum, zero_add]
  · simp only [getTotalPrice, foldl_add_sum, zero_add]

/-- C5: when the remote delete request fails while authenticated,
`remove` still converges the canonical snapshot to the previous snapshot
with the matching entry filtered out, for both controllers. -/
theorem remove_fallback_filters (sc : CartSt) (sw : WishSt)
    (pidc pidw : String) (oc ow : List Bool)
    (hc : sc.auth = true) (hw : sw.auth = true)
    (hcin : isInCart pidc sc = true)
    (hwin : isInWishlist pidw sw = true) :
    (runCartOp (.remove pidc) sc (false :: oc)).1.items
      = sc.items.filter (fun it => it.product.id != pidc) ∧
    (runWishOp (.remove pidw) sw (false :: ow)).1.items
      = sw.items.filter (fun it => it.id != pidw) := by
  constructor
  · simp [runCartOp, cartOpBody, removeFromCart, hc, netStep]
  · simp [runWishOp, wishOpBody, removeFromWishlist, hw, netStep]

/-- Witness for C5: authenticated, canonical = [{A,1}], remote delete
fails, canonical becomes []. -/
theorem remove_fallback_filters_witness :
    (runCartOp (.remove "A")
        ⟨true, [⟨prodA, 1⟩], .val [⟨prodA, 1⟩], [⟨prodA, 1⟩]⟩
        [false]).1.items = [] ∧
    (runWishOp (.remove "A")
        ⟨true, [prodA], .val [prodA], [prodA]⟩
        [false]).1.items = [] := by
  have h := remove_fallback_filters
    ⟨true, [⟨prodA, 1⟩], .val [⟨prodA, 1⟩], [⟨prodA, 1⟩]⟩
    ⟨true, [prodA], .val [prodA], [prodA]⟩
    "A" "A" [] [] rfl rfl (by decide) (by decide)
  exact ⟨h.1.trans (by decide), h.2.trans (by decide)⟩

/-- C8: no public operation of either controller propagates an exception
past its boundary (the `err` field of every operation body is `none`, for
every input and every remote-call outcome), and a parse failure of the
persisted Local value is treated as the empty collection — both in the
unauthenticated read and in the authenticated fetch-failure fallback. -/
theorem ops_never_reject :
    (∀ (op : CartOp) (s : CartSt) (o : List Bool),
        (cartOpBody op s o).err = none) ∧
    (∀ (op : WishOp) (s : WishSt) (o : List Bool),
        (wishOpBody op s o).err = none) ∧
    (∀ (s : CartSt) (o : List Bool), s.auth = false →
        s.localCart = .corrupt → (runCartOp .load s o).1.items = []) ∧
    (∀ (s : WishSt) (o : List Bool), s.auth = false →
        s.localWish = .corrupt → (runWishOp .load s o).1.items = []) ∧
    (∀ (s : CartSt) (o : List Bool), s.auth = true →
        s.localCart = .corrupt →
        (runCartOp .load s (false :: o)).1.items = []) ∧
    (∀ (s : WishSt) (o : List Bool), s.auth = true →
        s.localWish = .corrupt →
        (runWishOp .load s (false :: o)).1.items = []) := by
  refine ⟨cartOpBody_err_none, wishOpBody_err_none, ?_, ?_, ?_, ?_⟩
  · intro s o ha hc
    simp [runCartOp, cartOpBody, loadCart, ha, hc]
  · intro s o ha hc
    simp [runWishOp, wishOpBody, loadWishlist, ha, hc]
  · intro s o ha hc
    simp [runCartOp, cartOpBody, loadCart, cartLoadAttempt, netStep,
      tryCatch, ha, hc]
  · intro s o ha hc
    simp [runWishOp, wishOpBody, loadWishlist, wishLoadAttempt, netStep,
      tryCatch, ha, hc]

/-- Witness for C8 on concrete corrupt-Local states. -/
theorem ops_never_reject_witness :
    (cartOpBody .sync ⟨true, [⟨prodA, 1⟩], .corrupt, []⟩ []).err = none ∧
    (wishOpBody .load ⟨true, [prodA], .corrupt, []⟩ []).err = none ∧
    (runCartOp .load ⟨false, [⟨prodA, 1⟩], .corrupt, []⟩ []).1.items
      = [] ∧
    (runWishOp .load ⟨false, [prodA], .corrupt, []⟩ []).1.items = [] ∧
    (runCartOp .load ⟨true, [⟨prodA, 1⟩], .corrupt, []⟩ [false]).1.items
      = [] ∧
    (runWishOp .load ⟨true, [prodA], .corrupt, []⟩ [false]).1.items
      = [] := by
  obtain ⟨h1, h2, h3, h4, h5, h6⟩ := ops_never_reject
  exact ⟨h1 .sync ⟨true, [⟨prodA, 1⟩], .corrupt, []⟩ [],
    h2 .load ⟨true, [prodA], .corrupt, []⟩ [],
    h3 ⟨false, [⟨prodA, 1⟩], .corrupt, []⟩ [] rfl rfl,
    h4 ⟨false, [prodA], .corrupt, []⟩ [] rfl rfl,
    h5 ⟨true, [⟨prodA, 1⟩], .corrupt, []⟩ [] rfl rfl,
    h6 ⟨true, [prodA], .corrupt, []⟩ [] rfl rfl⟩

/-- C10: a wishlist fallback mutation performed while authenticated (add,
remove, or toggle whose remote call fails) changes only the canonical
in-memory snapshot: the persisted Local wishlist slot and the remote store
are left untouched, because the wishlist persist effect only writes while
unauthenticated — unlike the cart, whose unguarded persist effect mirrors
every change. -/
theorem runWishOp_add_fail_frame (s : WishSt) (p : Product)
    (o : List Bool) (h : s.auth = true) :
    (runWishOp (.add p) s (false :: o)).1.localWish = s.localWish ∧
    (runWishOp (.add p) s (false :: o)).1.remoteWish = s.remoteWish := by
  by_cases hmem : (s.items.any fun it => it.id == p.id) = true <;>
    simp [runWishOp, wishOpBody, addToWishlist, netStep, h, hmem]

theorem runWishOp_remove_fail_frame (s : WishSt) (pid : String)
    (o : List Bool) (h : s.auth = true) :
    (runWishOp (.remove pid) s (false :: o)).1.localWish = s.localWish ∧
    (runWishOp (.remove pid) s (false :: o)).1.remoteWish
      = s.remoteWish := by
  simp [runWishOp, wishOpBody, removeFromWishlist, netStep, h]

theorem wishlist_auth_fallback_frame (s : WishSt) (p : Product)
    (pid : String) (o : List Bool) (h : s.auth = true) :
    ((runWishOp (.add p) s (false :: o)).1.localWish = s.localWish ∧
     (runWishOp (.add p) s (false :: o)).1.remoteWish = s.remoteWish) ∧
    ((runWishOp (.remove pid) s (false :: o)).1.localWish = s.localWish ∧
     (runWishOp (.remove pid) s (false :: o)).1.remoteWish
        = s.remoteWish) ∧
    ((runWishOp (.toggle p) s (false :: o)).1.localWish = s.localWish ∧
     (runWishOp (.toggle p) s (false :: o)).1.remoteWish
        = s.remoteWish) := by
  refine ⟨runWishOp_add_fail_frame s p o h,
    runWishOp_remove_fail_frame s pid o h, ?_⟩
  by_cases hin : isInWishlist p.id s
  · have heq : runWishOp (.toggle p) s (false :: o)
        = runWishOp (.remove p.id) s (false :: o) := by
      simp [runWishOp, wishOpBody, toggleWishlist, hin]
    rw [heq]
    exact runWishOp_remove_fail_frame s p.id o h
  · have heq : runWishOp (.toggle p) s (false :: o)
        = runWishOp (.add p) s (false :: o) := by
      simp [runWishOp, wishOpBody, toggleWishlist, hin]
    rw [heq]
    exact runWishOp_add_fail_frame s p o h

/-- C2: starting from the empty canonical snapshot, any sequence of
add/remove/updateQuantity operations issued while unauthenticated (adds
carrying the positive quantity every UI call site passes) keeps the
canonical cart snapshot well-formed: no two entries share a
product_reference and no entry has quantity ≤ 0. -/
theorem cart_unauth_invariant (ops : List CartOp)
    (hops : ∀ op ∈ ops, mutOk op = true)
    (L : Stored CartItem) (R : List CartItem) (o : List Bool) :
    CartWF (runCartOps ops ⟨false, [], L, R⟩ o).items := by
  refine cartOps_unauth_wf ops _ o hops rfl ⟨?_, ?_⟩
  · simp [cartIds]
  · intro it hit
    exact absurd hit (by simp)

/-- Witness for C2 on a concrete operation sequence that exercises
duplicate adds, a non-positive update and a removal. -/
theorem cart_unauth_invariant_witness :
    (∀ op ∈ ([.add prodA 2, .add prodA 3, .add prodB 1, .update "A" 0,
        .update "B" 7, .remove "C"] : List CartOp), mutOk op = true) ∧
    CartWF (runCartOps
      [.add prodA 2, .add prodA 3, .add prodB 1, .update "A" 0,
        .update "B" 7, .remove "C"]
      ⟨false, [], .absent, []⟩ []).items :=
  ⟨by decide,
    cart_unauth_invariant
      [.add prodA 2, .add prodA 3, .add prodB 1, .update "A" 0,
        .update "B" 7, .remove "C"]
      (by decide) .absent [] []⟩

/-- C9: the cart keeps the Local slot equal to the serialization of the
canonical snapshot after every operation, in every authentication state
(including authenticated fallback mutations), because its persist effect
runs on every change of the snapshot.  The mirror property is established
by the mount-time run of the persist effect and preserved by every
operation sequence. -/
theorem cart_local_mirror (ops : List CartOp) (s : CartSt) (o : List Bool)
    (h : s.localCart = .val s.items) :
    (runCartOps ops s o).localCart = .val (runCartOps ops s o).items := by
  induction ops generalizing s o with
  | nil => exact h
  | cons op ops ih =>
    exact ih (runCartOp op s o).1 (runCartOp op s o).2
      (runCartOp_mirror op s o h)

/-- Witness for C9: an authenticated state with a failing network, so
every mutation takes the local fallback path; the mirror survives. -/
theorem cart_local_mirror_witness :
    (runCartOps [.add prodB 2, .update "A" 5, .remove "A", .clear, .load]
        ⟨true, [⟨prodA, 1⟩], .val [⟨prodA, 1⟩], [⟨prodA, 1⟩]⟩ []).localCart
      = .val (runCartOps
        [.add prodB 2, .update "A" 5, .remove "A", .clear, .load]
        ⟨true, [⟨prodA, 1⟩], .val [⟨prodA, 1⟩], [⟨prodA, 1⟩]⟩ []).items :=
  cart_local_mirror
    [.add prodB 2, .update "A" 5, .remove "A", .clear, .load]
    ⟨true, [⟨prodA, 1⟩], .val [⟨prodA, 1⟩], [⟨prodA, 1⟩]⟩ [] rfl

/-- Witness for C10 on a concrete authenticated state with a failing
network. -/
theorem wishlist_auth_fallback_frame_witness :
    (runWishOp (.add prodB) ⟨true, [prodA], .val [prodA], [prodA]⟩
        [false]).1.localWish = .val [prodA] ∧
    (runWishOp (.toggle prodA) ⟨true, [prodA], .val [prodA], [prodA]⟩
        [false]).1.localWish = .val [prodA] := by
  have h := wishlist_auth_fallback_frame
    ⟨true, [prodA], .val [prodA], [prodA]⟩ prodB "A" [] rfl
  have h' := wishlist_auth_fallback_frame
    ⟨true, [prodA], .val [prodA], [prodA]⟩ prodA "A" [] rfl
  exact ⟨h.1.1, h'.2.2.1⟩

end Melody
